import Mathlib

/-!
Shallow embedding of the deploy action sources (src/utils.ts and
src/deploy.ts) of sonian/aws-cloudformation-github-deploy.

The provider (AWS CloudFormation, plus the bit.ly URL shortener) is
modelled as an environment `CfnEnv` that fixes the outcome of each remote
call made during one run.  Every embedded operation returns its
JavaScript-level result (`Except JsError _`, since any awaited call can
reject) together with the list of remote calls it issued, in order.
JavaScript `undefined` for strings is `Option.none`; string truthiness
(only `""` is falsy) and `Map` insertion-order semantics are modelled
explicitly.
-/

namespace CfnDeploy

/-- A JavaScript error value: AWS SDK errors carry a `code`, plain
`Error` objects do not. -/
structure JsError where
  code : Option String
  message : String
deriving DecidableEq

/-- Whether `pat` occurs at the start of `cs`. -/
def startsWithChars : List Char → List Char → Bool
  | _, [] => true
  | [], _ :: _ => false
  | c :: cs, d :: ds => c == d && startsWithChars cs ds

/-- Whether `pat` occurs somewhere in `cs`. -/
def hasSubstrChars : List Char → List Char → Bool
  | _, [] => true
  | [], _ :: _ => false
  | c :: cs, d :: ds =>
    startsWithChars (c :: cs) (d :: ds) || hasSubstrChars cs (d :: ds)

/-- `s.includes(pat)` / a match of an unanchored regex literal: substring
containment. -/
def containsSubstr (s pat : String) : Bool :=
  hasSubstrChars s.toList pat.toList

/-- JavaScript `s.split(sep)` for a one-character separator (the sources
only split on `','` and `'='`); `"".split(sep)` is `[""]`. -/
def splitChar (sep : Char) : List Char → List (List Char)
  | [] => [[]]
  | c :: cs =>
    if c = sep then [] :: splitChar sep cs
    else
      match splitChar sep cs with
      | [] => [[c]]
      | g :: gs => (c :: g) :: gs

/-- JavaScript `s.split(sep)` on strings. -/
def jsSplit (sep : Char) (s : String) : List String :=
  (splitChar sep s.toList).map List.asString

/-- JavaScript `s.trim()` (whitespace as `Char.isWhitespace`). -/
def jsTrim (s : String) : String :=
  ((s.toList.dropWhile Char.isWhitespace).reverse.dropWhile
    Char.isWhitespace).reverse.asString

/-- Template-literal conversion of a possibly-undefined string
(JavaScript renders `undefined` as "undefined"). -/
def jsToString (o : Option String) : String :=
  match o with
  | none => "undefined"
  | some s => s

/-- JavaScript falsiness of a possibly-undefined string: `undefined` and
`""` are falsy, every other string is truthy. -/
def jsFalsyStr : Option String → Bool
  | none => true
  | some s => s == ""

/-- JavaScript truthiness of a possibly-undefined string. -/
def jsTruthyStr (o : Option String) : Bool :=
  !(jsFalsyStr o)

/-! ### JavaScript `Map<string, α>` as an insertion-ordered association list -/

/-- `map.get(k)`: first (unique) entry with key `k`. -/
def jsMapGet {α : Type} (m : List (String × α)) (k : String) : Option α :=
  (m.find? (fun p => p.1 == k)).map Prod.snd

/-- `map.set(k, v)`: update in place when the key is present (keeping its
position), append otherwise. -/
def jsMapSet {α : Type} (m : List (String × α)) (k : String) (v : α) :
    List (String × α) :=
  if m.any (fun p => p.1 == k) then
    m.map (fun p => if p.1 == k then (k, v) else p)
  else
    m ++ [(k, v)]

/-! ### Data model (the SDK shapes the sources read or build) -/

/-- `aws-sdk` CloudFormation `Parameter` (fields used by the sources). -/
structure Parameter where
  ParameterKey : Option String
  ParameterValue : Option String
  UsePreviousValue : Option Bool
deriving DecidableEq

/-- A stack tag. -/
structure Tag where
  Key : String
  Value : String
deriving DecidableEq

/-- A rollback trigger of a `RollbackConfiguration`.  The SDK names the
second field `Type`, which is a keyword here. -/
structure RollbackTrigger where
  Arn : String
  TriggerType : String
deriving DecidableEq

/-- `RollbackConfiguration` (opaque payload as far as the sources are
concerned; they only forward it). -/
structure RollbackConfiguration where
  RollbackTriggers : Option (List RollbackTrigger)
  MonitoringTimeInMinutes : Option Int
deriving DecidableEq

/-- One entry of a stack's `Outputs` list. -/
structure StackOutput where
  OutputKey : Option String
  OutputValue : Option String
deriving DecidableEq

/-- `aws.CloudFormation.Stack` (the fields the sources read). -/
structure Stack where
  StackId : Option String
  StackName : String
  StackStatus : String
  Outputs : Option (List StackOutput)
deriving DecidableEq

/-- `CreateStackInput` as consumed by `deployStack` (the fields it reads). -/
structure CreateStackInput where
  StackName : String
  TemplateBody : Option String
  Parameters : Option (List Parameter)
  Capabilities : Option (List String)
  ResourceTypes : Option (List String)
  RoleARN : Option String
  RollbackConfiguration : Option RollbackConfiguration
  NotificationARNs : Option (List String)
  Tags : Option (List Tag)
deriving DecidableEq

/-- `CreateChangeSetInput` as built by `deployStack` and consumed by
`updateStack` / `cleanupChangeSet`. -/
structure CreateChangeSetInput where
  ChangeSetName : String
  StackName : String
  TemplateBody : Option String
  Parameters : Option (List Parameter)
  Capabilities : Option (List String)
  ResourceTypes : Option (List String)
  RoleARN : Option String
  RollbackConfiguration : Option RollbackConfiguration
  NotificationARNs : Option (List String)
  Tags : Option (List Tag)
deriving DecidableEq

/-- Response of `describeStacks`. -/
structure DescribeStacksOutput where
  Stacks : Option (List Stack)
deriving DecidableEq

/-- Response of `createStack`. -/
structure CreateStackOutput where
  StackId : Option String
deriving DecidableEq

/-- Response of `createChangeSet`. -/
structure CreateChangeSetOutput where
  Id : Option String
  StackId : Option String
deriving DecidableEq

/-- Response of `describeChangeSet` (the fields `cleanupChangeSet` reads). -/
structure DescribeChangeSetOutput where
  Status : Option String
  StatusReason : Option String
deriving DecidableEq

/-- Response body of the bit.ly shortening call. -/
structure UrlShortenerResponse where
  link : String
  long_url : String
deriving DecidableEq

/-- One remote call issued during a run, with the request data the
sources put into it. -/
inductive CfnCall where
  | describeStacks (stackName : String)
  | createStack (params : CreateStackInput)
  | waitStackCreateComplete (stackName : String)
  | createChangeSet (params : CreateChangeSetInput)
  | waitChangeSetCreateComplete (changeSetName stackName : String)
  | describeChangeSet (changeSetName stackName : String)
  | deleteChangeSet (changeSetName stackName : String)
  | executeChangeSet (changeSetName stackName : String)
  | waitStackUpdateComplete (stackName : Option String)
  | shortenUrl (url auth : String)
deriving DecidableEq

/-- The change-set name a call carries, when it is a change-set operation. -/
def changeSetNameOf : CfnCall → Option String
  | .createChangeSet p => some p.ChangeSetName
  | .waitChangeSetCreateComplete n _ => some n
  | .describeChangeSet n _ => some n
  | .deleteChangeSet n _ => some n
  | .executeChangeSet n _ => some n
  | _ => none

/-- Whether a call is a change-set operation (create, wait, describe,
delete or execute of a change set). -/
def isChangeSetCall (c : CfnCall) : Bool :=
  (changeSetNameOf c).isSome

/-- Whether a call is a stack-creation request. -/
def isCreateStackCall : CfnCall → Bool
  | .createStack _ => true
  | _ => false

/-- The provider environment of one run: the outcome of each remote call
the sources can make.  `describeStacks` is keyed by the requested name
because `getStack` is invoked with different arguments by different
entry points; the remaining calls each occur at most once per run. -/
structure CfnEnv where
  region : Option String
  bitlyToken : Option String
  shorten : String → Except JsError UrlShortenerResponse
  describeStacks : String → Except JsError DescribeStacksOutput
  createStack : Except JsError CreateStackOutput
  waitStackCreateComplete : Except JsError Unit
  createChangeSet : Except JsError CreateChangeSetOutput
  waitChangeSetCreateComplete : Except JsError Unit
  describeChangeSet : Except JsError DescribeChangeSetOutput
  deleteChangeSet : Except JsError Unit
  executeChangeSet : Except JsError Unit
  waitStackUpdateComplete : Except JsError Unit

/-! ### utils.ts -/

/-- Value of a hexadecimal digit character, if it is one. -/
def hexDigitVal (c : Char) : Option Nat :=
  if 48 ≤ c.toNat ∧ c.toNat ≤ 57 then some (c.toNat - 48)
  else if 65 ≤ c.toNat ∧ c.toNat ≤ 70 then some (c.toNat - 55)
  else if 97 ≤ c.toNat ∧ c.toNat ≤ 102 then some (c.toNat - 87)
  else none

/-- Value of a character as a digit in the given radix, if valid. -/
def digitValIn (radix : Nat) (c : Char) : Option Nat :=
  match hexDigitVal c with
  | some v => if v < radix then some v else none
  | none => none

/-- JavaScript `parseInt(s)` (radix argument omitted): skip leading
whitespace, optional sign, `0x`/`0X` switches to base 16, then the
longest prefix of digits; `none` models `NaN`. -/
def jsParseInt (s : String) : Option Int :=
  let cs0 := s.toList.dropWhile Char.isWhitespace
  let signAndRest : Int × List Char :=
    match cs0 with
    | '-' :: rest => (-1, rest)
    | '+' :: rest => (1, rest)
    | _ => (1, cs0)
  let radixAndRest : Nat × List Char :=
    match signAndRest.2 with
    | '0' :: c :: rest =>
      if c = 'x' ∨ c = 'X' then (16, rest) else (10, signAndRest.2)
    | _ => (10, signAndRest.2)
  let digits :=
    radixAndRest.2.takeWhile (fun c => (digitValIn radixAndRest.1 c).isSome)
  if digits.isEmpty then none
  else
    some (signAndRest.1 *
      (digits.foldl (fun acc c => acc * radixAndRest.1 + (digitValIn radixAndRest.1 c).getD 0) 0 : Nat))

/-- `parseNumber(s) = parseInt(s) || undefined`: `NaN` and `0` (the
falsy numbers reachable here) become `undefined`. -/
def parseNumber (s : String) : Option Int :=
  match jsParseInt s with
  | none => none
  | some n => if n = 0 then none else some n

/-- Key of one comma-separated piece: the piece is trimmed, split on
`=`, and destructured as `[key, value]`. -/
def pieceKey (piece : String) : String :=
  (jsSplit '=' (jsTrim piece)).headD ""

/-- Value of one comma-separated piece (`undefined` when the piece has
no `=`); anything after a second `=` is discarded by the
destructuring. -/
def pieceVal (piece : String) : Option String :=
  (jsSplit '=' (jsTrim piece))[1]?

/-- `param = !param ? value : [param, value].join(',')`:
`Array.prototype.join` renders `undefined` elements as `""`. -/
def collapseStep (param value : Option String) : Option String :=
  if jsFalsyStr param then value
  else some (param.getD "" ++ "," ++ value.getD "")

/-- The loop body of `parseParameters`: read the current entry, collapse
it with the new value, write it back. -/
def insertParam (m : List (String × Option String)) (piece : String) :
    List (String × Option String) :=
  let key := pieceKey piece
  jsMapSet m key
    (collapseStep (Option.join (jsMapGet m key)) (pieceVal piece))

/-- `parseParameters`: split on commas, fold the pieces into the map,
then read the map back in key-insertion order. -/
def parseParameters (parameterOverrides : String) : List Parameter :=
  let m := (jsSplit ',' parameterOverrides).foldl insertParam []
  (m.map Prod.fst).map (fun key =>
    { ParameterKey := some key
      ParameterValue := Option.join (jsMapGet m key)
      UsePreviousValue := none })

/-! ### deploy.ts -/

/-- Uppercase hexadecimal digit character of a value below 16. -/
def hexDigitChar (n : Nat) : Char :=
  if n < 10 then Char.ofNat (48 + n) else Char.ofNat (55 + n)

/-- UTF-8 bytes of one character. -/
def utf8Encode (c : Char) : List Nat :=
  let n := c.toNat
  if n < 128 then [n]
  else if n < 2048 then [192 + n / 64, 128 + n % 64]
  else if n < 65536 then [224 + n / 4096, 128 + (n / 64) % 64, 128 + n % 64]
  else [240 + n / 262144, 128 + (n / 4096) % 64, 128 + (n / 64) % 64, 128 + n % 64]

/-- Characters `encodeURIComponent` leaves unescaped. -/
def uriUnreserved (c : Char) : Bool :=
  c.isAlpha || c.isDigit ||
  c = '-' || c = '_' || c = '.' || c = '!' || c = '~' || c = '*' ||
  c = Char.ofNat 39 || c = '(' || c = ')'

/-- JavaScript `encodeURIComponent`. -/
def encodeURIComponent (s : String) : String :=
  String.join (s.toList.map (fun c =>
    if uriUnreserved c then String.singleton c
    else String.join ((utf8Encode c).map (fun b =>
      "%" ++ String.singleton (hexDigitChar (b / 16)) ++
      String.singleton (hexDigitChar (b % 16))))))

/-- TypeScript non-null assertion `x!` on a string; at runtime an actual
`undefined` flows on and renders as "undefined". -/
def jsBang (o : Option String) : String :=
  jsToString o

/-- `genCfnUrl`: build the console deep link and POST it to the
shortener; the shortened `link` field is returned, any rejection of the
POST propagates. -/
def genCfnUrl (env : CfnEnv) (stackArn changeSetArn : String) :
    Except JsError String × List CfnCall :=
  let url :=
    "https://console.aws.amazon.com/cloudformation/home" ++
    ("?region=" ++ jsToString env.region ++ "#/stacks/changesets/changes") ++
    ("?stackId=" ++ encodeURIComponent stackArn) ++
    ("&changeSetId=" ++ encodeURIComponent changeSetArn)
  let calls := [CfnCall.shortenUrl url ("Bearer " ++ jsToString env.bitlyToken)]
  ((match env.shorten url with
    | .error e => .error e
    | .ok resp => .ok resp.link),
   calls)

/-- The two provider messages recognised as "empty change set". -/
def knownErrorMessages : List String :=
  ["No updates are to be performed",
   "The submitted information didn't contain changes"]

/-- `changeSetStatus.StatusReason?.includes(err)`: optional chaining on
an undefined reason is falsy. -/
def reasonIncludes (reason : Option String) (err : String) : Bool :=
  match reason with
  | none => false
  | some s => containsSubstr s err

/-- `cleanupChangeSet`: describe the change set; when its status is
FAILED, delete it (unless suppressed), then either return the stack id
(empty-change-set tolerated) or throw; any other status falls through to
an implicit `return undefined`. -/
def cleanupChangeSet (env : CfnEnv) (stack : Stack)
    (params : CreateChangeSetInput)
    (noEmptyChangeSet noDeleteFailedChangeSet : Bool) :
    Except JsError (Option String) × List CfnCall :=
  let t0 := [CfnCall.describeChangeSet params.ChangeSetName params.StackName]
  match env.describeChangeSet with
  | .error e => (.error e, t0)
  | .ok changeSetStatus =>
    if changeSetStatus.Status = some "FAILED" then
      let t1 := if noDeleteFailedChangeSet then t0
        else t0 ++ [CfnCall.deleteChangeSet params.ChangeSetName params.StackName]
      let delRes : Except JsError Unit :=
        if noDeleteFailedChangeSet then .ok () else env.deleteChangeSet
      ((match delRes with
        | .error e => .error e
        | .ok _ =>
          if noEmptyChangeSet &&
              knownErrorMessages.any
                (fun err => reasonIncludes changeSetStatus.StatusReason err) then
            .ok stack.StackId
          else
            .error
              { code := none
                message := "Failed to create Change Set: " ++
                  jsToString changeSetStatus.StatusReason }),
       t1)
    else
      (.ok none, t0)

/-- `updateStack`: create the change set, wait for its creation
(delegating to `cleanupChangeSet` when the wait rejects), then either
stop before executing (no-execute) or execute and wait for the stack
update. -/
def updateStack (env : CfnEnv) (stack : Stack)
    (params : CreateChangeSetInput)
    (noEmptyChangeSet noExecuteChageSet noDeleteFailedChangeSet : Bool) :
    Except JsError (Option String) × List CfnCall :=
  let t0 := [CfnCall.createChangeSet params]
  match env.createChangeSet with
  | .error e => (.error e, t0)
  | .ok cset =>
    let t1 := t0 ++
      [CfnCall.waitChangeSetCreateComplete params.ChangeSetName params.StackName]
    match env.waitChangeSetCreateComplete with
    | .error _ =>
      let c := cleanupChangeSet env stack params noEmptyChangeSet
        noDeleteFailedChangeSet
      (c.1, t1 ++ c.2)
    | .ok _ =>
      if noExecuteChageSet then
        let g := genCfnUrl env (jsBang stack.StackId) (jsBang cset.Id)
        match g.1 with
        | .error e => (.error e, t1 ++ g.2)
        | .ok _ => (.ok stack.StackId, t1 ++ g.2)
      else
        let t2 := t1 ++
          [CfnCall.executeChangeSet params.ChangeSetName params.StackName]
        match env.executeChangeSet with
        | .error e => (.error e, t2)
        | .ok _ =>
          let t3 := t2 ++ [CfnCall.waitStackUpdateComplete stack.StackId]
          match env.waitStackUpdateComplete with
          | .error e => (.error e, t3)
          | .ok _ => (.ok stack.StackId, t3)

/-- `getStack`: describe the stack and return the first result; a
ValidationError whose message matches /does not exist/ becomes the
"not found" outcome `none`; any other rejection is re-thrown. -/
def getStackResult (env : CfnEnv) (stackNameOrId : String) :
    Except JsError (Option Stack) :=
  match env.describeStacks stackNameOrId with
  | .ok resp => .ok (resp.Stacks.bind List.head?)
  | .error e =>
    if e.code = some "ValidationError" ∧ containsSubstr e.message "does not exist" then
      .ok none
    else
      .error e

/-- `getStack` issues exactly one `describeStacks` call. -/
def getStack (env : CfnEnv) (stackNameOrId : String) :
    Except JsError (Option Stack) × List CfnCall :=
  (getStackResult env stackNameOrId, [CfnCall.describeStacks stackNameOrId])

/-- `deployStack`: look the stack up; create it (and wait) when absent,
otherwise build the change-set input (name `<stackName>-CS`) and
delegate to `updateStack`. -/
def deployStack (env : CfnEnv) (params : CreateStackInput)
    (noEmptyChangeSet noExecuteChageSet noDeleteFailedChangeSet : Bool) :
    Except JsError (Option String) × List CfnCall :=
  let g := getStack env params.StackName
  match g.1 with
  | .error e => (.error e, g.2)
  | .ok none =>
    let t1 := g.2 ++ [CfnCall.createStack params]
    match env.createStack with
    | .error e => (.error e, t1)
    | .ok created =>
      let t2 := t1 ++ [CfnCall.waitStackCreateComplete params.StackName]
      match env.waitStackCreateComplete with
      | .error e => (.error e, t2)
      | .ok _ => (.ok created.StackId, t2)
  | .ok (some stack) =>
    let u := updateStack env stack
      { ChangeSetName := params.StackName ++ "-CS"
        StackName := params.StackName
        TemplateBody := params.TemplateBody
        Parameters := params.Parameters
        Capabilities := params.Capabilities
        ResourceTypes := params.ResourceTypes
        RoleARN := params.RoleARN
        RollbackConfiguration := params.RollbackConfiguration
        NotificationARNs := params.NotificationARNs
        Tags := params.Tags }
      noEmptyChangeSet noExecuteChageSet noDeleteFailedChangeSet
    (u.1, g.2 ++ u.2)

/-- Loop body of `getStackOutputs`: insert an output when both key and
value are truthy (present and nonempty). -/
def outputStep (m : List (String × String)) (o : StackOutput) :
    List (String × String) :=
  if jsTruthyStr o.OutputKey && jsTruthyStr o.OutputValue then
    jsMapSet m (o.OutputKey.getD "") (o.OutputValue.getD "")
  else m

/-- `getStackOutputs`: look the stack up; a found stack with a (truthy)
outputs list is folded into the map, everything else yields the empty
map. -/
def getStackOutputs (env : CfnEnv) (stackId : String) :
    Except JsError (List (String × String)) × List CfnCall :=
  let g := getStack env stackId
  match g.1 with
  | .error e => (.error e, g.2)
  | .ok stackOpt =>
    match stackOpt with
    | some stack =>
      match stack.Outputs with
      | some os => (.ok (os.foldl outputStep []), g.2)
      | none => (.ok [], g.2)
    | none => (.ok [], g.2)

/-! ### Specification-side definitions (for refinement comparisons) -/

/-- The loop body of `parseParameters` viewed on an already parsed
(key, value) pair; `insertParam` is exactly this after parsing the
piece. -/
def insertKV (m : List (String × Option String))
    (kv : String × Option String) : List (String × Option String) :=
  jsMapSet m kv.1 (collapseStep (Option.join (jsMapGet m kv.1)) kv.2)

/-- Keys in first-seen order, deduplicated. -/
def firstSeenKeys (ks : List String) : List String :=
  ks.foldl (fun acc k => if acc.any (fun x => x == k) then acc else acc ++ [k]) []

/-- Comma-separated concatenation, as the spec words it. -/
def joinComma : List String → String
  | [] => ""
  | [a] => a
  | a :: b :: rest => a ++ "," ++ joinComma (b :: rest)

/-- Parameter parsing as the spec words it: one entry per key in
first-seen order, its value the comma-separated concatenation of all of
that key's values in encounter order. -/
def specParseParameters (s : String) : List Parameter :=
  let pieces := jsSplit ',' s
  (firstSeenKeys (pieces.map pieceKey)).map (fun k =>
    { ParameterKey := some k
      ParameterValue := some (joinComma
        ((pieces.filter (fun p => pieceKey p == k)).map
          (fun p => (pieceVal p).getD "")))
      UsePreviousValue := none })

/-- The (key, value) pairs of an output list that survive the truthiness
filter of `getStackOutputs`. -/
def goodPairs (os : List StackOutput) : List (String × String) :=
  os.filterMap (fun o =>
    if jsTruthyStr o.OutputKey && jsTruthyStr o.OutputValue then
      some (o.OutputKey.getD "", o.OutputValue.getD "")
    else none)

/-- Last-wins lookup over a pair list: the value of the last pair with
the given key, or the initial value when there is none. -/
def lastWins (ps : List (String × String)) (k : String)
    (init : Option String) : Option String :=
  (ps.filter (fun p => p.1 == k)).foldl (fun _ p => some p.2) init

/-! ### Concrete runs used by the witnesses and counterexamples -/

/-- A generic rejection used where a call's outcome is irrelevant. -/
def errNet : JsError := { code := none, message := "network unavailable" }

/-- The rejection `waitFor` produces when the change-set creation ends
in a terminal failure state. -/
def errWait : JsError :=
  { code := none
    message := "Resource is not in the state changeSetCreateComplete" }

/-- An existing stack. -/
def stackA : Stack :=
  { StackId := some "arn:stackA"
    StackName := "mystack"
    StackStatus := "CREATE_COMPLETE"
    Outputs := none }

/-- A provider in which every call succeeds and `mystack` exists. -/
def envBase : CfnEnv :=
  { region := some "us-east-1"
    bitlyToken := none
    shorten := fun u => .ok { link := "https://bit.ly/x", long_url := u }
    describeStacks := fun _ => .ok { Stacks := some [stackA] }
    createStack := .ok { StackId := some "arn:new" }
    waitStackCreateComplete := .ok ()
    createChangeSet := .ok { Id := some "arn:cs", StackId := stackA.StackId }
    waitChangeSetCreateComplete := .ok ()
    describeChangeSet := .ok { Status := some "CREATE_COMPLETE", StatusReason := none }
    deleteChangeSet := .ok ()
    executeChangeSet := .ok ()
    waitStackUpdateComplete := .ok () }

/-- The provider's "does not exist" validation error. -/
def errNotExist : JsError :=
  { code := some "ValidationError"
    message := "Stack with id mystack does not exist" }

/-- A provider whose stack lookup rejects with the "does not exist"
validation error. -/
def envNotFound : CfnEnv :=
  { envBase with describeStacks := fun _ => .error errNotExist }

/-- A provider where the change-set creation wait rejects and the
change set then reports FAILED with the "no updates" reason. -/
def envWaitFailEmpty : CfnEnv :=
  { envBase with
    waitChangeSetCreateComplete := .error errWait
    describeChangeSet := .ok
      { Status := some "FAILED"
        StatusReason := some "No updates are to be performed" } }

/-- A provider where the change-set creation wait rejects but the
change set does not report FAILED. -/
def envWaitFailPending : CfnEnv :=
  { envBase with waitChangeSetCreateComplete := .error errWait }

/-- A stack whose only output entry has an empty-string value (both
fields present). -/
def stackEmptyOutput : Stack :=
  { stackA with Outputs := some [{ OutputKey := some "K", OutputValue := some "" }] }

/-- A provider serving `stackEmptyOutput`. -/
def envEmptyOutput : CfnEnv :=
  { envBase with describeStacks := fun _ => .ok { Stacks := some [stackEmptyOutput] } }

/-- Output entries mixing present, missing and empty fields, with a
repeated key. -/
def mixedOutputs : List StackOutput :=
  [{ OutputKey := some "A", OutputValue := some "1" },
   { OutputKey := none, OutputValue := some "2" },
   { OutputKey := some "B", OutputValue := none },
   { OutputKey := some "C", OutputValue := some "" },
   { OutputKey := some "A", OutputValue := some "3" }]

/-- A stack carrying `mixedOutputs`. -/
def stackMixedOutputs : Stack :=
  { stackA with Outputs := some mixedOutputs }

/-- A provider serving `stackMixedOutputs`. -/
def envMixedOutputs : CfnEnv :=
  { envBase with describeStacks := fun _ => .ok { Stacks := some [stackMixedOutputs] } }

/-- Stack-creation input for `mystack`. -/
def paramsStackA : CreateStackInput :=
  { StackName := "mystack"
    TemplateBody := some "{}"
    Parameters := none
    Capabilities := none
    ResourceTypes := none
    RoleARN := none
    RollbackConfiguration := none
    NotificationARNs := none
    Tags := none }

/-- Change-set input as `deployStack` derives it from `paramsStackA`. -/
def paramsCS : CreateChangeSetInput :=
  { ChangeSetName := "mystack-CS"
    StackName := "mystack"
    TemplateBody := some "{}"
    Parameters := none
    Capabilities := none
    ResourceTypes := none
    RoleARN := none
    RollbackConfiguration := none
    NotificationARNs := none
    Tags := none }

/-! ## Theorems -/

/-- C6: `parseNumber` returns the integer that JavaScript `parseInt`
reads off the front of the string when that integer is nonzero, and the
absent value `none` when the parse fails or yields zero; in particular
`parseNumber "0"` is absent. -/
theorem parseNumber_leading_or_absent :
    (∀ s n, jsParseInt s = some n → n ≠ 0 → parseNumber s = some n) ∧
    (∀ s, jsParseInt s = none → parseNumber s = none) ∧
    (∀ s, jsParseInt s = some 0 → parseNumber s = none) ∧
    parseNumber "0" = none := by
  refine ⟨fun s n h hn => ?_, fun s h => ?_, fun s h => ?_, rfl⟩
  · simp [parseNumber, h, hn]
  · simp [parseNumber, h]
  · simp [parseNumber, h]

/-- Witness for C6 at the inputs "17" and "0". -/
theorem parseNumber_leading_or_absent_witness :
    jsParseInt "17" = some 17 ∧ parseNumber "17" = some 17 :=
  ⟨by decide, parseNumber_leading_or_absent.1 "17" 17 (by decide) (by decide)⟩

/-- C9: when a (comma-free) piece splits on `=` into three or more
parts, only the text between the first and second `=` is kept as the
value; everything from the second `=` on is discarded. -/
theorem parseParameters_second_equals (p k v w : String) (rest : List String)
    (hp : jsSplit ',' p = [p])
    (hsplit : jsSplit '=' (jsTrim p) = k :: v :: w :: rest) :
    parseParameters p =
      [{ ParameterKey := some k, ParameterValue := some v,
         UsePreviousValue := none }] := by
  simp [parseParameters, hp, insertParam, pieceKey, pieceVal, hsplit,
    jsMapGet, jsMapSet, jsFalsyStr, collapseStep]

/-- Witness for C9 at the piece "A=b=c". -/
theorem parseParameters_second_equals_witness :
    jsSplit ',' "A=b=c" = ["A=b=c"] ∧
    parseParameters "A=b=c" =
      [{ ParameterKey := some "A", ParameterValue := some "b",
         UsePreviousValue := none }] :=
  ⟨by decide,
   parseParameters_second_equals "A=b=c" "A" "b" "c" [] (by decide) (by decide)⟩

/-- C3: `getStack` returns the first stack of a successful describe
response; a rejection with code ValidationError and a message matching
/does not exist/ becomes the distinguished not-found outcome `none`;
any other rejection is re-raised unchanged. -/
theorem getStack_first_or_not_found (env : CfnEnv) (name : String) :
    (∀ resp, env.describeStacks name = .ok resp →
      (getStack env name).1 = .ok (resp.Stacks.bind List.head?)) ∧
    (∀ e, env.describeStacks name = .error e →
      ((e.code = some "ValidationError" ∧
          containsSubstr e.message "does not exist" = true) →
        (getStack env name).1 = .ok none) ∧
      (¬(e.code = some "ValidationError" ∧
          containsSubstr e.message "does not exist" = true) →
        (getStack env name).1 = .error e)) := by
  refine ⟨fun resp h => ?_, fun e h => ⟨fun hc => ?_, fun hc => ?_⟩⟩
  · simp [getStack, getStackResult, h]
  · simp [getStack, getStackResult, h, hc]
  · simp [getStack, getStackResult, h]
    intro h1
    cases hb : containsSubstr e.message "does not exist"
    · rfl
    · exact absurd ⟨h1, hb⟩ hc

/-- Witness for C3: the not-found branch at a concrete provider. -/
theorem getStack_first_or_not_found_witness :
    (getStack envNotFound "mystack").1 = .ok none :=
  ((getStack_first_or_not_found envNotFound "mystack").2 errNotExist rfl).1
    ⟨rfl, by decide⟩

/-- C8: when the change-set-creation wait fails but the fetched status
is not the literal FAILED, `updateStack` returns `undefined`: no
deletion happens, no error is raised, and no stack identifier is
returned (the final trace is create, wait, describe only). -/
theorem updateStack_wait_fail_not_failed (env : CfnEnv) (stack : Stack)
    (params : CreateChangeSetInput) (noEmpty noExec noDelete : Bool)
    (cset : CreateChangeSetOutput) (e : JsError)
    (st : DescribeChangeSetOutput)
    (hc : env.createChangeSet = .ok cset)
    (hw : env.waitChangeSetCreateComplete = .error e)
    (hd : env.describeChangeSet = .ok st)
    (hst : ¬ st.Status = some "FAILED") :
    (updateStack env stack params noEmpty noExec noDelete).1 = .ok none ∧
    (updateStack env stack params noEmpty noExec noDelete).2 =
      [.createChangeSet params,
       .waitChangeSetCreateComplete params.ChangeSetName params.StackName,
       .describeChangeSet params.ChangeSetName params.StackName] := by
  constructor <;> simp [updateStack, hc, hw, cleanupChangeSet, hd, hst]

/-- Witness for C8 at a provider whose change set stays CREATE_COMPLETE
while the wait rejects. -/
theorem updateStack_wait_fail_not_failed_witness :
    (updateStack envWaitFailPending stackA paramsCS true false false).1 =
      .ok none :=
  (updateStack_wait_fail_not_failed envWaitFailPending stackA paramsCS
    true false false { Id := some "arn:cs", StackId := stackA.StackId }
    errWait { Status := some "CREATE_COMPLETE", StatusReason := none }
    rfl rfl rfl (by decide)).1

/-- C1: on an existing stack, when the change-set wait fails, the
fetched status is FAILED (with some reason) and the delete step (when
performed) succeeds: with `noEmptyChangeSet` set and a reason containing
one of the two known no-op patterns, `updateStack` returns the existing
stack's identifier; with the flag unset or a reason matching neither
pattern, it raises an error whose message embeds the reason. -/
theorem updateStack_empty_changeset (env : CfnEnv) (stack : Stack)
    (params : CreateChangeSetInput) (noEmpty noExec noDelete : Bool)
    (cset : CreateChangeSetOutput) (e : JsError)
    (st : DescribeChangeSetOutput) (reason sid : String)
    (hc : env.createChangeSet = .ok cset)
    (hw : env.waitChangeSetCreateComplete = .error e)
    (hd : env.describeChangeSet = .ok st)
    (hst : st.Status = some "FAILED")
    (hre : st.StatusReason = some reason)
    (hdel : (if noDelete then Except.ok () else env.deleteChangeSet) =
      Except.ok ())
    (hsid : stack.StackId = some sid) :
    ((noEmpty = true ∧
        (containsSubstr reason "No updates are to be performed" = true ∨
         containsSubstr reason "The submitted information didn't contain changes" = true)) →
      (updateStack env stack params noEmpty noExec noDelete).1 =
        .ok (some sid)) ∧
    ((noEmpty = false ∨
        (containsSubstr reason "No updates are to be performed" = false ∧
         containsSubstr reason "The submitted information didn't contain changes" = false)) →
      (updateStack env stack params noEmpty noExec noDelete).1 =
        .error { code := none
                 message := "Failed to create Change Set: " ++ reason }) := by
  constructor
  · rintro ⟨hne, hmatch⟩
    subst hne
    rcases hmatch with h1 | h1
    · simp [updateStack, hc, hw, cleanupChangeSet, hd, hst, hre, hdel, hsid,
        knownErrorMessages, reasonIncludes, h1]
    · simp [updateStack, hc, hw, cleanupChangeSet, hd, hst, hre, hdel, hsid,
        knownErrorMessages, reasonIncludes, h1]
  · intro hfail
    rcases hfail with hne | ⟨h1, h2⟩
    · simp [updateStack, hc, hw, cleanupChangeSet, hd, hst, hre, hdel, hsid,
        knownErrorMessages, reasonIncludes, jsToString, hne]
    · simp [updateStack, hc, hw, cleanupChangeSet, hd, hst, hre, hdel, hsid,
        knownErrorMessages, reasonIncludes, jsToString, h1, h2]

/-- Witness for C1: the empty-change-set success branch at a concrete
provider. -/
theorem updateStack_empty_changeset_witness :
    (updateStack envWaitFailEmpty stackA paramsCS true false false).1 =
      .ok (some "arn:stackA") :=
  (updateStack_empty_changeset envWaitFailEmpty stackA paramsCS
    true false false { Id := some "arn:cs", StackId := stackA.StackId }
    errWait
    { Status := some "FAILED"
      StatusReason := some "No updates are to be performed" }
    "No updates are to be performed" "arn:stackA"
    rfl rfl rfl rfl rfl rfl rfl).1 ⟨rfl, Or.inl (by decide)⟩

/-- C2: when the stack lookup reports the stack as nonexistent and the
creation and its wait succeed, `deployStack` issues exactly one
stack-creation request, waits for create-complete, returns the created
stack's identifier, and issues no change-set operation. -/
theorem deployStack_create_new (env : CfnEnv) (params : CreateStackInput)
    (noEmpty noExec noDelete : Bool) (created : CreateStackOutput)
    (hget : (getStack env params.StackName).1 = .ok none)
    (hcreate : env.createStack = .ok created)
    (hwait : env.waitStackCreateComplete = .ok ()) :
    (deployStack env params noEmpty noExec noDelete).1 = .ok created.StackId ∧
    (deployStack env params noEmpty noExec noDelete).2 =
      [.describeStacks params.StackName, .createStack params,
       .waitStackCreateComplete params.StackName] ∧
    ((deployStack env params noEmpty noExec noDelete).2.countP
      isCreateStackCall) = 1 ∧
    (∀ c ∈ (deployStack env params noEmpty noExec noDelete).2,
      isChangeSetCall c = false) := by
  have hg : getStackResult env params.StackName = Except.ok none := hget
  have h2 : (deployStack env params noEmpty noExec noDelete).2 =
      [.describeStacks params.StackName, .createStack params,
       .waitStackCreateComplete params.StackName] := by
    simp [deployStack, getStack, hg, hcreate, hwait]
  refine ⟨?_, h2, ?_, ?_⟩
  · simp [deployStack, getStack, hg, hcreate, hwait]
  · rw [h2]
    simp [List.countP_cons, isCreateStackCall]
  · rw [h2]
    intro c hmem
    simp only [List.mem_cons, List.not_mem_nil, or_false] at hmem
    rcases hmem with rfl | rfl | rfl <;> rfl

/-- Witness for C2 at a provider that reports the stack as
nonexistent. -/
theorem deployStack_create_new_witness :
    (deployStack envNotFound paramsStackA false false false).1 =
      .ok (some "arn:new") :=
  (deployStack_create_new envNotFound paramsStackA false false false
    { StackId := some "arn:new" } rfl rfl rfl).1

/-- Every call `cleanupChangeSet` issues is the describe or the delete
of its own change set. -/
theorem cleanupChangeSet_calls (env : CfnEnv) (stack : Stack)
    (params : CreateChangeSetInput) (nE nD : Bool) :
    (cleanupChangeSet env stack params nE nD).2 ⊆
      [CfnCall.describeChangeSet params.ChangeSetName params.StackName,
       CfnCall.deleteChangeSet params.ChangeSetName params.StackName] := by
  unfold cleanupChangeSet
  rcases env.describeChangeSet with e | st
  · simp
  · by_cases hst : st.Status = some "FAILED"
    · by_cases hnD : nD <;> simp [hst, hnD, List.subset_def]
    · simp [hst]

/-- `genCfnUrl` issues no change-set operation. -/
theorem genCfnUrl_calls (env : CfnEnv) (a b : String) (c : CfnCall)
    (hc : c ∈ (genCfnUrl env a b).2) : changeSetNameOf c = none := by
  simp [genCfnUrl] at hc
  subst hc
  rfl

/-- Every change-set operation `updateStack` issues carries the
change-set name of its input. -/
theorem updateStack_calls (env : CfnEnv) (stack : Stack)
    (params : CreateChangeSetInput) (nE nX nD : Bool) :
    ∀ c ∈ (updateStack env stack params nE nX nD).2, ∀ n,
      changeSetNameOf c = some n → n = params.ChangeSetName := by
  intro c hc n hn
  unfold updateStack at hc
  rcases h1 : env.createChangeSet with e | cset <;> simp only [h1] at hc
  · simp at hc
    subst hc
    simp [changeSetNameOf] at hn
    exact hn.symm
  · rcases h2 : env.waitChangeSetCreateComplete with e2 | u2 <;>
      simp only [h2] at hc
    · simp only [List.append_assoc, List.mem_append, List.mem_cons,
        List.mem_singleton, List.not_mem_nil, or_false] at hc
      rcases hc with rfl | rfl | hc
      · simp [changeSetNameOf] at hn; exact hn.symm
      · simp [changeSetNameOf] at hn; exact hn.symm
      · have h5 := cleanupChangeSet_calls env stack params nE nD hc
        simp only [List.mem_cons, List.mem_singleton, List.not_mem_nil,
          or_false] at h5
        rcases h5 with rfl | rfl <;>
          (simp [changeSetNameOf] at hn; exact hn.symm)
    · rcases hX : nX with _ | _
      case false =>
        simp only [hX, Bool.false_eq_true, if_false] at hc
        rcases h3 : env.executeChangeSet with e3 | u3 <;> simp only [h3] at hc
        · simp at hc
          rcases hc with rfl | rfl | rfl <;>
            (simp [changeSetNameOf] at hn; exact hn.symm)
        · rcases h4 : env.waitStackUpdateComplete with e4 | u4 <;>
            simp only [h4] at hc <;> simp at hc
          · rcases hc with rfl | rfl | rfl | rfl
            · simp [changeSetNameOf] at hn; exact hn.symm
            · simp [changeSetNameOf] at hn; exact hn.symm
            · simp [changeSetNameOf] at hn; exact hn.symm
            · simp [changeSetNameOf] at hn
          · rcases hc with rfl | rfl | rfl | rfl
            · simp [changeSetNameOf] at hn; exact hn.symm
            · simp [changeSetNameOf] at hn; exact hn.symm
            · simp [changeSetNameOf] at hn; exact hn.symm
            · simp [changeSetNameOf] at hn
      case true =>
        simp [hX] at hc
        rcases h3 : (genCfnUrl env (jsBang stack.StackId) (jsBang cset.Id)).1
          with e3 | r3 <;> simp only [h3] at hc <;> simp at hc
        · rcases hc with rfl | rfl | hc
          · simp [changeSetNameOf] at hn; exact hn.symm
          · simp [changeSetNameOf] at hn; exact hn.symm
          · rw [genCfnUrl_calls env _ _ c hc] at hn
            exact absurd hn (by simp)
        · rcases hc with rfl | rfl | hc
          · simp [changeSetNameOf] at hn; exact hn.symm
          · simp [changeSetNameOf] at hn; exact hn.symm
          · rw [genCfnUrl_calls env _ _ c hc] at hn
            exact absurd hn (by simp)

/-- `updateStack` always submits its change-set creation request. -/
theorem updateStack_issues_create (env : CfnEnv) (stack : Stack)
    (params : CreateChangeSetInput) (nE nX nD : Bool) :
    CfnCall.createChangeSet params ∈
      (updateStack env stack params nE nX nD).2 := by
  unfold updateStack
  rcases env.createChangeSet with e | cset
  · simp
  · rcases env.waitChangeSetCreateComplete with e2 | u2
    · simp
    · rcases hX : nX with _ | _
      case false =>
        simp only [hX, Bool.false_eq_true, if_false]
        rcases env.executeChangeSet with e3 | u3
        · simp
        · rcases env.waitStackUpdateComplete with e4 | u4 <;> simp
      case true =>
        simp only [hX, if_true]
        rcases h3 : (genCfnUrl env (jsBang stack.StackId) (jsBang cset.Id)).1
          with e3 | r3 <;> simp [h3]

/-- C5: on an existing stack, the change-set name submitted to the
provider is exactly the stack name with the literal suffix "-CS": the
creation request with that name is issued, and every change-set
operation of the run carries that name. -/
theorem deployStack_changeset_name (env : CfnEnv) (params : CreateStackInput)
    (nE nX nD : Bool) (stack : Stack)
    (hget : (getStack env params.StackName).1 = .ok (some stack)) :
    CfnCall.createChangeSet
      { ChangeSetName := params.StackName ++ "-CS"
        StackName := params.StackName
        TemplateBody := params.TemplateBody
        Parameters := params.Parameters
        Capabilities := params.Capabilities
        ResourceTypes := params.ResourceTypes
        RoleARN := params.RoleARN
        RollbackConfiguration := params.RollbackConfiguration
        NotificationARNs := params.NotificationARNs
        Tags := params.Tags } ∈ (deployStack env params nE nX nD).2 ∧
    ∀ c ∈ (deployStack env params nE nX nD).2, ∀ n,
      changeSetNameOf c = some n → n = params.StackName ++ "-CS" := by
  have hg : getStackResult env params.StackName = Except.ok (some stack) := hget
  have h2 : (deployStack env params nE nX nD).2 =
      CfnCall.describeStacks params.StackName ::
        (updateStack env stack
          { ChangeSetName := params.StackName ++ "-CS"
            StackName := params.StackName
            TemplateBody := params.TemplateBody
            Parameters := params.Parameters
            Capabilities := params.Capabilities
            ResourceTypes := params.ResourceTypes
            RoleARN := params.RoleARN
            RollbackConfiguration := params.RollbackConfiguration
            NotificationARNs := params.NotificationARNs
            Tags := params.Tags } nE nX nD).2 := by
    simp [deployStack, getStack, hg]
  constructor
  · rw [h2]
    exact List.mem_cons_of_mem _ (updateStack_issues_create env stack _ nE nX nD)
  · intro c hc n hn
    rw [h2] at hc
    rcases List.mem_cons.mp hc with rfl | hc
    · simp [changeSetNameOf] at hn
    · exact updateStack_calls env stack _ nE nX nD c hc n hn

/-- Witness for C5 at a provider where `mystack` exists. -/
theorem deployStack_changeset_name_witness :
    CfnCall.createChangeSet
      { ChangeSetName := paramsStackA.StackName ++ "-CS"
        StackName := paramsStackA.StackName
        TemplateBody := paramsStackA.TemplateBody
        Parameters := paramsStackA.Parameters
        Capabilities := paramsStackA.Capabilities
        ResourceTypes := paramsStackA.ResourceTypes
        RoleARN := paramsStackA.RoleARN
        RollbackConfiguration := paramsStackA.RollbackConfiguration
        NotificationARNs := paramsStackA.NotificationARNs
        Tags := paramsStackA.Tags } ∈
      (deployStack envBase paramsStackA false false false).2 :=
  (deployStack_changeset_name envBase paramsStackA false false false stackA rfl).1


/-- Lookup at a matching head entry. -/
theorem jsMapGet_cons_hit {α : Type} (q : String × α) (m : List (String × α))
    (k : String) (hq : (q.1 == k) = true) : jsMapGet (q :: m) k = some q.2 := by
  simp [jsMapGet, List.find?, hq]

/-- Lookup skips a non-matching head entry. -/
theorem jsMapGet_cons_miss {α : Type} (q : String × α) (m : List (String × α))
    (k : String) (hq : (q.1 == k) = false) : jsMapGet (q :: m) k = jsMapGet m k := by
  simp [jsMapGet, List.find?, hq]

/-- Setting a key commutes with a non-matching head entry. -/
theorem jsMapSet_cons_miss {α : Type} (q : String × α) (m : List (String × α))
    (k : String) (v : α) (hq : (q.1 == k) = false) :
    jsMapSet (q :: m) k v = q :: jsMapSet m k v := by
  have hqne : ¬ q.1 = k := by simpa using hq
  by_cases h : m.any (fun p => p.1 == k) <;> simp [jsMapSet, hq, h, hqne]

/-- Setting a key whose first entry is the head replaces in place. -/
theorem jsMapSet_cons_hit {α : Type} (q : String × α) (m : List (String × α))
    (k : String) (v : α) (hq : (q.1 == k) = true) :
    jsMapSet (q :: m) k v =
      (k, v) :: m.map (fun p => if p.1 == k then (k, v) else p) := by
  have hqe : q.1 = k := by simpa using hq
  simp [jsMapSet, hq, hqe, List.any_cons]

/-- Lookup after setting the same key. -/
theorem jsMapGet_set_self {α : Type} (m : List (String × α)) (k : String)
    (v : α) : jsMapGet (jsMapSet m k v) k = some v := by
  induction m with
  | nil => simp [jsMapSet, jsMapGet, List.find?]
  | cons q m ih =>
    rcases hq : (q.1 == k) with _ | _
    · rw [jsMapSet_cons_miss q m k v hq, jsMapGet_cons_miss _ _ _ hq]
      exact ih
    · rw [jsMapSet_cons_hit q m k v hq]
      exact jsMapGet_cons_hit _ _ _ (by simp)

/-- In-place replacement of one key leaves other lookups unchanged. -/
theorem jsMapGet_replace_ne {α : Type} (m : List (String × α)) (k : String)
    (v : α) (k2 : String) (hne : (k == k2) = false) :
    jsMapGet (m.map (fun p => if p.1 == k then (k, v) else p)) k2 =
      jsMapGet m k2 := by
  induction m with
  | nil => rfl
  | cons q m ih =>
    rcases hq : (q.1 == k) with _ | _
    · simp only [List.map_cons, hq, Bool.false_eq_true, if_false]
      rcases hq2 : (q.1 == k2) with _ | _
      · rw [jsMapGet_cons_miss _ _ _ hq2, jsMapGet_cons_miss _ _ _ hq2]
        exact ih
      · rw [jsMapGet_cons_hit _ _ _ hq2, jsMapGet_cons_hit _ _ _ hq2]
    · simp only [List.map_cons, hq, if_true]
      have hqk : q.1 = k := by simpa using hq
      have hq2 : (q.1 == k2) = false := by rw [hqk]; exact hne
      rw [jsMapGet_cons_miss _ _ _ (by simpa using hne),
        jsMapGet_cons_miss _ _ _ hq2]
      exact ih

/-- Appending an entry for another key leaves lookups unchanged. -/
theorem jsMapGet_append_single_ne {α : Type} (m : List (String × α))
    (k : String) (v : α) (k2 : String) (hne : (k == k2) = false) :
    jsMapGet (m ++ [(k, v)]) k2 = jsMapGet m k2 := by
  induction m with
  | nil => simp [jsMapGet, List.find?, hne]
  | cons q m ih =>
    rcases hq2 : (q.1 == k2) with _ | _
    · rw [List.cons_append, jsMapGet_cons_miss _ _ _ hq2,
        jsMapGet_cons_miss _ _ _ hq2]
      exact ih
    · rw [List.cons_append, jsMapGet_cons_hit _ _ _ hq2,
        jsMapGet_cons_hit _ _ _ hq2]

/-- Lookup after setting a different key. -/
theorem jsMapGet_set_ne {α : Type} (m : List (String × α)) (k : String)
    (v : α) (k2 : String) (hne : (k == k2) = false) :
    jsMapGet (jsMapSet m k v) k2 = jsMapGet m k2 := by
  unfold jsMapSet
  by_cases h : m.any (fun p => p.1 == k)
  · simp only [h, if_true]
    exact jsMapGet_replace_ne m k v k2 hne
  · simp only [h, Bool.false_eq_true, if_false]
    exact jsMapGet_append_single_ne m k v k2 hne

/-- Entries after a set are old entries or the new pair. -/
theorem mem_jsMapSet {α : Type} (m : List (String × α)) (k : String) (v : α)
    (p : String × α) (hp : p ∈ jsMapSet m k v) : p ∈ m ∨ p = (k, v) := by
  unfold jsMapSet at hp
  by_cases h : m.any (fun q => q.1 == k)
  · simp only [h, if_true] at hp
    rcases List.mem_map.mp hp with ⟨q, hq, hpe⟩
    rcases h2 : (q.1 == k) with _ | _
    · left
      rw [← hpe]
      simpa [h2] using hq
    · right
      rw [← hpe]
      simp [h2]
  · simp only [h, Bool.false_eq_true, if_false] at hp
    rcases List.mem_append.mp hp with h3 | h3
    · exact Or.inl h3
    · right; simpa using h3


/-- `goodPairs` keeps an entry whose key and value are truthy. -/
theorem goodPairs_cons_good (o : StackOutput) (os : List StackOutput)
    (h : (jsTruthyStr o.OutputKey && jsTruthyStr o.OutputValue) = true) :
    goodPairs (o :: os) =
      (o.OutputKey.getD "", o.OutputValue.getD "") :: goodPairs os := by
  have h2 := (Bool.and_eq_true _ _).mp h
  simp [goodPairs, List.filterMap_cons, h2.1, h2.2]

/-- `goodPairs` drops an entry that fails the truthiness test. -/
theorem goodPairs_cons_bad (o : StackOutput) (os : List StackOutput)
    (h : (jsTruthyStr o.OutputKey && jsTruthyStr o.OutputValue) = false) :
    goodPairs (o :: os) = goodPairs os := by
  have h2 : ¬(jsTruthyStr o.OutputKey = true ∧ jsTruthyStr o.OutputValue = true) := by
    rw [← Bool.and_eq_true]
    simp [h]
  simp [goodPairs, List.filterMap_cons, h2]

/-- `lastWins` over a matching head: the head becomes the fallback. -/
theorem lastWins_cons_hit (k0 : String) (v0 : String)
    (ps : List (String × String)) (k : String) (init : Option String)
    (h : (k0 == k) = true) :
    lastWins ((k0, v0) :: ps) k init = lastWins ps k (some v0) := by
  simp [lastWins, h]

/-- `lastWins` ignores a non-matching head. -/
theorem lastWins_cons_miss (k0 : String) (v0 : String)
    (ps : List (String × String)) (k : String) (init : Option String)
    (h : (k0 == k) = false) :
    lastWins ((k0, v0) :: ps) k init = lastWins ps k init := by
  simp [lastWins, h]

/-- The outputs map built by the fold answers lookups by the last
surviving pair with the queried key. -/
theorem jsMapGet_foldl_outputStep (os : List StackOutput) :
    ∀ (m : List (String × String)) (k : String),
      jsMapGet (os.foldl outputStep m) k =
        lastWins (goodPairs os) k (jsMapGet m k) := by
  induction os with
  | nil => intro m k; simp [goodPairs, lastWins]
  | cons o os ih =>
    intro m k
    rcases hg : (jsTruthyStr o.OutputKey && jsTruthyStr o.OutputValue) with _ | _
    · rw [List.foldl_cons, goodPairs_cons_bad o os hg]
      have hstep : outputStep m o = m := by simp [outputStep, hg]
      rw [hstep]
      exact ih m k
    · rw [List.foldl_cons, goodPairs_cons_good o os hg]
      have hstep : outputStep m o =
          jsMapSet m (o.OutputKey.getD "") (o.OutputValue.getD "") := by
        simp [outputStep, hg]
      rw [hstep]
      rcases hk : (o.OutputKey.getD "" == k) with _ | _
      · rw [lastWins_cons_miss _ _ _ _ _ hk, ih]
        rw [jsMapGet_set_ne m _ _ k hk]
      · rw [lastWins_cons_hit _ _ _ _ _ hk, ih]
        have hk2 : o.OutputKey.getD "" = k := by simpa using hk
        rw [hk2, jsMapGet_set_self]

/-- Every entry of the built outputs map has a nonempty key and a
nonempty value. -/
theorem foldl_outputStep_nonempty (os : List StackOutput) :
    ∀ (m : List (String × String)),
      (∀ p ∈ m, p.1 ≠ "" ∧ p.2 ≠ "") →
      ∀ p ∈ os.foldl outputStep m, p.1 ≠ "" ∧ p.2 ≠ "" := by
  induction os with
  | nil => intro m hm p hp; exact hm p hp
  | cons o os ih =>
    intro m hm p hp
    rw [List.foldl_cons] at hp
    refine ih (outputStep m o) ?_ p hp
    intro q hq
    unfold outputStep at hq
    rcases hg : (jsTruthyStr o.OutputKey && jsTruthyStr o.OutputValue)
      with _ | _
    · rw [hg] at hq
      simp only [Bool.false_eq_true, if_false] at hq
      exact hm q hq
    · rw [hg] at hq
      simp only [if_true] at hq
      rcases mem_jsMapSet _ _ _ q hq with h2 | h2
      · exact hm q h2
      · have hgk := (Bool.and_eq_true _ _).mp hg
        subst h2
        constructor
        · rcases ho : o.OutputKey with _ | s
          · rw [ho] at hgk; simp [jsTruthyStr, jsFalsyStr] at hgk
          · have := hgk.1
            rw [ho] at this
            simpa [jsTruthyStr, jsFalsyStr] using this
        · rcases ho : o.OutputValue with _ | s
          · rw [ho] at hgk; simp [jsTruthyStr, jsFalsyStr] at hgk
          · have := hgk.2
            rw [ho] at this
            simpa [jsTruthyStr, jsFalsyStr] using this

/-- C7 (amended): `getStackOutputs` returns the empty map (not an
error) when the lookup reports not-found or the stack has no outputs
list; otherwise it returns the map built from the stack's outputs, which
contains exactly the entries whose key and value are both present and
nonempty, each key answering with its (last) output value. -/
theorem getStackOutputs_map (env : CfnEnv) (stackId : String) :
    ((getStack env stackId).1 = .ok none →
      (getStackOutputs env stackId).1 = .ok []) ∧
    (∀ stack, (getStack env stackId).1 = .ok (some stack) →
      (stack.Outputs = none → (getStackOutputs env stackId).1 = .ok []) ∧
      (∀ os, stack.Outputs = some os →
        (getStackOutputs env stackId).1 = .ok (os.foldl outputStep []) ∧
        ∀ k, jsMapGet (os.foldl outputStep []) k =
          lastWins (goodPairs os) k none)) := by
  constructor
  · intro h
    have hg : getStackResult env stackId = Except.ok none := h
    simp [getStackOutputs, getStack, hg]
  · intro stack h
    have hg : getStackResult env stackId = Except.ok (some stack) := h
    constructor
    · intro ho
      simp [getStackOutputs, getStack, hg, ho]
    · intro os ho
      constructor
      · simp [getStackOutputs, getStack, hg, ho]
      · intro k
        have := jsMapGet_foldl_outputStep os [] k
        simpa [jsMapGet, List.find?] using this

/-- Witness for C7 at a provider with mixed output entries. -/
theorem getStackOutputs_map_witness :
    (getStackOutputs envMixedOutputs "mystack").1 = .ok [("A", "3")] ∧
    jsMapGet [("A", "3")] "A" = lastWins (goodPairs mixedOutputs) "A" none := by
  have h := ((getStackOutputs_map envMixedOutputs "mystack").2
    stackMixedOutputs rfl).2 mixedOutputs rfl
  exact ⟨h.1, h.2 "A"⟩

/-- C7 counterexample: an output entry with both fields present but an
empty-string value is skipped, so the returned map is empty where the
claim as stated demands an entry K -> "". -/
theorem getStackOutputs_value_present_counterexample :
    stackEmptyOutput.Outputs =
      some [{ OutputKey := some "K", OutputValue := some "" }] ∧
    (getStackOutputs envEmptyOutput "mystack").1 = .ok [] ∧
    jsMapGet ([] : List (String × String)) "K" = none :=
  ⟨rfl, rfl, rfl⟩

/-- C10: `getStackOutputs` skips entries whose key or value is present
but equal to the empty string (the loop body leaves the map unchanged on
them), and no entry of the returned map has an empty key or value. -/
theorem getStackOutputs_skips_empty (env : CfnEnv) (stackId : String) :
    (∀ (m : List (String × String)) (k v : String),
      outputStep m { OutputKey := some k, OutputValue := some "" } = m ∧
      outputStep m { OutputKey := some "", OutputValue := some v } = m) ∧
    (∀ m, (getStackOutputs env stackId).1 = .ok m →
      ∀ p ∈ m, p.1 ≠ "" ∧ p.2 ≠ "") := by
  constructor
  · intro m k v
    constructor <;> simp [outputStep, jsTruthyStr, jsFalsyStr]
  · intro m hm p hp
    rcases h1 : getStackResult env stackId with e | so
    · simp [getStackOutputs, getStack, h1] at hm
    · rcases so with _ | stack
      · simp [getStackOutputs, getStack, h1] at hm
        subst hm
        simp at hp
      · rcases h2 : stack.Outputs with _ | os
        · simp [getStackOutputs, getStack, h1, h2] at hm
          subst hm
          simp at hp
        · simp [getStackOutputs, getStack, h1, h2] at hm
          subst hm
          exact foldl_outputStep_nonempty os [] (by simp) p hp

/-- Witness for C10 at a provider with mixed output entries. -/
theorem getStackOutputs_skips_empty_witness :
    ∀ p ∈ [("A", "3")], p.1 ≠ "" ∧ p.2 ≠ "" :=
  (getStackOutputs_skips_empty envMixedOutputs "mystack").2 [("A", "3")] rfl

/-- `insertParam` is `insertKV` after parsing the piece. -/
theorem insertParam_eq_insertKV (m : List (String × Option String))
    (p : String) : insertParam m p = insertKV m (pieceKey p, pieceVal p) := rfl

/-- The parameter fold factors through the parsed (key, value) pairs. -/
theorem foldl_insertParam (pieces : List String) :
    ∀ m, pieces.foldl insertParam m =
      (pieces.map (fun p => (pieceKey p, pieceVal p))).foldl insertKV m := by
  induction pieces with
  | nil => intro m; rfl
  | cons p pieces ih =>
    intro m
    rw [List.map_cons, List.foldl_cons, List.foldl_cons,
      insertParam_eq_insertKV, ih]

/-- In-place replacement keeps the key list. -/
theorem keys_replace {α : Type} (m : List (String × α)) (k : String) (v : α) :
    (m.map (fun p => if p.1 == k then (k, v) else p)).map Prod.fst =
      m.map Prod.fst := by
  induction m with
  | nil => rfl
  | cons q m ih =>
    have hhead : (if q.1 == k then (k, v) else q).1 = q.1 := by
      rcases hq : (q.1 == k) with _ | _
      · simp [hq]
      · have hqe : q.1 = k := by simpa using hq
        simp [hq, hqe]
    rw [List.map_cons, List.map_cons, List.map_cons, hhead, ih]

/-- Keys after a set: unchanged when present, appended when absent. -/
theorem keys_jsMapSet {α : Type} (m : List (String × α)) (k : String)
    (v : α) :
    (jsMapSet m k v).map Prod.fst =
      if (m.map Prod.fst).any (fun x => x == k) then m.map Prod.fst
      else m.map Prod.fst ++ [k] := by
  have hany : (m.any (fun p => p.1 == k)) =
      (m.map Prod.fst).any (fun x => x == k) := by
    induction m with
    | nil => rfl
    | cons q m ih => simp [List.any_cons, ih]
  rcases h : (m.map Prod.fst).any (fun x => x == k) with _ | _
  · rw [if_neg (by simp [h])]
    unfold jsMapSet
    rw [if_neg (by rw [hany, h]; simp)]
    simp
  · rw [if_pos rfl]
    unfold jsMapSet
    rw [if_pos (by rw [hany, h])]
    exact keys_replace m k v

/-- Keys of the built map are the folded first-seen keys. -/
theorem keys_foldl_insertKV (kvs : List (String × Option String)) :
    ∀ m, (kvs.foldl insertKV m).map Prod.fst =
      kvs.foldl (fun acc kv =>
        if acc.any (fun x => x == kv.1) then acc else acc ++ [kv.1])
        (m.map Prod.fst) := by
  induction kvs with
  | nil => intro m; rfl
  | cons a kvs ih =>
    intro m
    rw [List.foldl_cons, List.foldl_cons, ih]
    congr 1
    exact keys_jsMapSet m a.1 _

/-- Lookup in the built map: untouched keys fall back to the initial
map, and a key that occurs collapses all of its values in encounter
order starting from the initial entry. -/
theorem jsMapGet_foldl_insertKV (kvs : List (String × Option String)) :
    ∀ (m : List (String × Option String)) (k : String),
      jsMapGet (kvs.foldl insertKV m) k =
        if (kvs.filter (fun kv => kv.1 == k)) = [] then jsMapGet m k
        else some (((kvs.filter (fun kv => kv.1 == k)).map Prod.snd).foldl
          collapseStep (Option.join (jsMapGet m k))) := by
  induction kvs with
  | nil => intro m k; simp
  | cons a kvs ih =>
    intro m k
    rcases ha : (a.1 == k) with _ | _
    · have hfilter : (a :: kvs).filter (fun kv => kv.1 == k) =
          kvs.filter (fun kv => kv.1 == k) := by
        simp [List.filter_cons, ha]
      have hget : jsMapGet (insertKV m a) k = jsMapGet m k := by
        unfold insertKV
        exact jsMapGet_set_ne m a.1 _ k ha
      rw [List.foldl_cons, ih, hget, hfilter]
    · have hak : a.1 = k := by simpa using ha
      have hfilter : (a :: kvs).filter (fun kv => kv.1 == k) =
          a :: kvs.filter (fun kv => kv.1 == k) := by
        simp [List.filter_cons, ha]
      have hget : jsMapGet (insertKV m a) k =
          some (collapseStep (Option.join (jsMapGet m k)) a.2) := by
        unfold insertKV
        rw [hak]
        exact jsMapGet_set_self m k _
      rw [List.foldl_cons, ih, hget, hfilter]
      by_cases hf : kvs.filter (fun kv => kv.1 == k) = [] <;>
        simp [hf, List.foldl_cons]

/-- A key of the first-seen fold comes from the accumulator or the input. -/
theorem mem_foldl_firstSeen (ks : List String) :
    ∀ (acc : List String) k, k ∈ ks.foldl (fun (acc2 : List String) k2 =>
        if acc2.any (fun x => x == k2) then acc2 else acc2 ++ [k2]) acc →
      k ∈ acc ∨ k ∈ ks := by
  induction ks with
  | nil => intro acc k h; exact Or.inl h
  | cons a ks ih =>
    intro acc k h
    rw [List.foldl_cons] at h
    rcases ih _ k h with h2 | h2
    · rcases ha : acc.any (fun x => x == a) with _ | _
      · rw [ha] at h2
        simp only [Bool.false_eq_true, if_false] at h2
        rcases List.mem_append.mp h2 with h3 | h3
        · exact Or.inl h3
        · right
          simp at h3
          simp [h3]
      · rw [ha] at h2
        simp only [if_true] at h2
        exact Or.inl h2
    · exact Or.inr (List.mem_cons_of_mem _ h2)

/-- `firstSeenKeys` only returns keys of its input. -/
theorem mem_firstSeenKeys (ks : List String) (k : String)
    (h : k ∈ firstSeenKeys ks) : k ∈ ks := by
  rcases mem_foldl_firstSeen ks [] k h with h2 | h2
  · simp at h2
  · exact h2

/-- The first-seen fold preserves distinctness. -/
theorem nodup_foldl_firstSeen (ks : List String) :
    ∀ (acc : List String), acc.Nodup → (ks.foldl (fun (acc2 : List String) k2 =>
      if acc2.any (fun x => x == k2) then acc2 else acc2 ++ [k2]) acc).Nodup := by
  induction ks with
  | nil => intro acc h; exact h
  | cons a ks ih =>
    intro acc h
    rw [List.foldl_cons]
    apply ih
    rcases ha : acc.any (fun x => x == a) with _ | _
    · simp only [Bool.false_eq_true, if_false]
      have hna : a ∉ acc := by
        intro hmem
        have h2 : acc.any (fun x => x == a) = true :=
          List.any_eq_true.mpr ⟨a, hmem, by simp⟩
        rw [ha] at h2
        exact Bool.false_ne_true h2
      simp [List.nodup_append, h, hna]
    · simp only [if_true]
      exact h

/-- `firstSeenKeys` has no duplicates. -/
theorem firstSeenKeys_nodup (ks : List String) : (firstSeenKeys ks).Nodup :=
  nodup_foldl_firstSeen ks [] (by simp)

/-- `joinComma` peels a joined head. -/
theorem joinComma_cons_append (a s : String) (l : List String) :
    joinComma ((a ++ "," ++ s) :: l) = a ++ "," ++ joinComma (s :: l) := by
  cases l with
  | nil => simp [joinComma]
  | cons b l => simp [joinComma, String.append_assoc]

/-- Collapsing truthy values starting from a nonempty accumulator is
exactly the comma-separated concatenation. -/
theorem collapse_nonempty (vals : List (Option String)) :
    ∀ a : String, a ≠ "" →
      (∀ v ∈ vals, jsTruthyStr v = true) →
      vals.foldl collapseStep (some a) =
        some (joinComma (a :: vals.map (fun v => v.getD ""))) := by
  induction vals with
  | nil => intro a ha hv; simp [joinComma]
  | cons v vals ih =>
    intro a ha hv
    have hvt := hv v (List.mem_cons_self _ _)
    rcases hvs : v with _ | s
    · rw [hvs] at hvt
      simp [jsTruthyStr, jsFalsyStr] at hvt
    · subst hvs
      have hs : s ≠ "" := by
        simpa [jsTruthyStr, jsFalsyStr] using hvt
      rw [List.foldl_cons]
      have hstep : collapseStep (some a) (some s) = some (a ++ "," ++ s) := by
        simp [collapseStep, jsFalsyStr, ha]
      rw [hstep]
      have hne : a ++ "," ++ s ≠ "" := by
        intro hcontr
        have h1 := congrArg String.length hcontr
        rw [String.length_append, String.length_append] at h1
        have h2 : String.length "," = 1 := rfl
        have h3 : String.length "" = 0 := rfl
        omega
      rw [ih (a ++ "," ++ s) hne (fun v2 hv2 => hv v2 (List.mem_cons_of_mem _ hv2))]
      rw [List.map_cons, joinComma_cons_append]
      simp [joinComma]

/-- Filtering a mapped list is mapping the filtered list. -/
theorem map_filter_comm {γ δ : Type} (l : List γ) (f : γ → δ) (q : δ → Bool) :
    (l.map f).filter q = (l.filter (fun x => q (f x))).map f := by
  induction l with
  | nil => rfl
  | cons a l ih =>
    rcases hq : q (f a) with _ | _ <;>
      simp [List.filter_cons, hq, ih]

/-- The keys of the parameter map are the piece keys in first-seen
order, deduplicated. -/
theorem parseParameters_keys (s : String) :
    ((jsSplit ',' s).foldl insertParam []).map Prod.fst =
      firstSeenKeys ((jsSplit ',' s).map pieceKey) := by
  rw [foldl_insertParam, keys_foldl_insertKV, firstSeenKeys]
  rw [List.foldl_map, List.foldl_map]
  rfl

/-- When every piece has a nonempty value, the stored value of each
key is the comma-separated concatenation of its values in encounter
order. -/
theorem parseParameters_vals (s : String)
    (h : ∀ p ∈ jsSplit ',' s, jsTruthyStr (pieceVal p) = true)
    (k : String) (hk : k ∈ firstSeenKeys ((jsSplit ',' s).map pieceKey)) :
    Option.join (jsMapGet ((jsSplit ',' s).foldl insertParam []) k) =
      some (joinComma (((jsSplit ',' s).filter
        (fun p => pieceKey p == k)).map (fun p => (pieceVal p).getD ""))) := by
  have hk2 : k ∈ (jsSplit ',' s).map pieceKey := mem_firstSeenKeys _ _ hk
  rcases List.mem_map.mp hk2 with ⟨p0, hp0, hkp0⟩
  rw [foldl_insertParam, jsMapGet_foldl_insertKV]
  have hbridge : ((jsSplit ',' s).map
      (fun p => (pieceKey p, pieceVal p))).filter (fun kv => kv.1 == k) =
      ((jsSplit ',' s).filter (fun p => pieceKey p == k)).map
        (fun p => (pieceKey p, pieceVal p)) :=
    map_filter_comm _ _ _
  have hne : ((jsSplit ',' s).filter (fun p => pieceKey p == k)) ≠ [] := by
    intro hnil
    have hp0f : p0 ∈ (jsSplit ',' s).filter (fun p => pieceKey p == k) :=
      List.mem_filter.mpr ⟨hp0, by rw [hkp0]; simp⟩
    rw [hnil] at hp0f
    exact absurd hp0f (List.not_mem_nil _)
  rw [hbridge, if_neg (fun hh => hne (List.map_eq_nil_iff.mp hh))]
  rw [List.map_map]
  have hsnd : (Prod.snd ∘ fun p => (pieceKey p, pieceVal p)) =
      fun p => pieceVal p := rfl
  rw [hsnd]
  rcases hv : ((jsSplit ',' s).filter (fun p => pieceKey p == k)).map
      (fun p => pieceVal p) with _ | ⟨v0, rest⟩
  · exact absurd (List.map_eq_nil_iff.mp hv) hne
  · have hvt : ∀ v ∈ ((jsSplit ',' s).filter (fun p => pieceKey p == k)).map
        (fun p => pieceVal p), jsTruthyStr v = true := by
      intro v hvm
      rcases List.mem_map.mp hvm with ⟨p, hpf, hpe⟩
      rw [← hpe]
      exact h p (List.mem_filter.mp hpf).1
    have hv0 : jsTruthyStr v0 = true := by
      apply hvt
      rw [hv]
      exact List.mem_cons_self _ _
    have hrest : ∀ v ∈ rest, jsTruthyStr v = true := by
      intro v hvm
      apply hvt
      rw [hv]
      exact List.mem_cons_of_mem _ hvm
    rcases hv0s : v0 with _ | s0
    · rw [hv0s] at hv0
      simp [jsTruthyStr, jsFalsyStr] at hv0
    · subst hv0s
      have hs0 : s0 ≠ "" := by
        simpa [jsTruthyStr, jsFalsyStr] using hv0
      have hbase : collapseStep (Option.join (jsMapGet
          ([] : List (String × Option String)) k)) (some s0) = some s0 := by
        simp [jsMapGet, List.find?, collapseStep, jsFalsyStr]
      rw [List.foldl_cons, hbase, collapse_nonempty rest s0 hs0 hrest]
      have hmapD : ((jsSplit ',' s).filter (fun p => pieceKey p == k)).map
          (fun p => (pieceVal p).getD "") =
          (((jsSplit ',' s).filter (fun p => pieceKey p == k)).map
            (fun p => pieceVal p)).map (fun v => v.getD "") := by
        rw [List.map_map]
        rfl
      rw [hmapD, hv, List.map_cons]
      simp [Option.join]

/-- C4 (amended): for raw strings in which every piece carries a
nonempty value, `parseParameters` yields exactly one entry per key in
first-seen key order whose value is the comma-separated concatenation of
that key's values in encounter order (it equals the spec-side
`specParseParameters`, and its key list has no duplicates).  When an
accumulated value is empty or missing, the code overwrites it instead of
joining, which is why the nonemptiness restriction is needed. -/
theorem parseParameters_spec_refines (s : String)
    (h : ∀ p ∈ jsSplit ',' s, jsTruthyStr (pieceVal p) = true) :
    parseParameters s = specParseParameters s ∧
    ((parseParameters s).map Parameter.ParameterKey).Nodup := by
  constructor
  · unfold parseParameters specParseParameters
    simp only []
    rw [parseParameters_keys]
    apply List.map_congr_left
    intro k hk
    rw [parseParameters_vals s h k hk]
  · unfold parseParameters
    simp only []
    rw [List.map_map]
    have hcomp : (Parameter.ParameterKey ∘ fun key =>
        ({ ParameterKey := some key
           ParameterValue := Option.join
             (jsMapGet ((jsSplit ',' s).foldl insertParam []) key)
           UsePreviousValue := none } : Parameter)) = fun key => some key := rfl
    rw [hcomp, parseParameters_keys]
    exact (firstSeenKeys_nodup _).map (Option.some_injective _)

/-- C4 counterexample: on "A=,A=2" the key A appears twice with values
"" and "2"; the comma-separated concatenation of the claim would be
",2", but the code yields "2" because the falsy stored "" is
overwritten, not joined. -/
theorem parseParameters_concat_counterexample :
    jsSplit ',' "A=,A=2" = ["A=", "A=2"] ∧
    pieceKey "A=" = "A" ∧ pieceVal "A=" = some "" ∧
    pieceKey "A=2" = "A" ∧ pieceVal "A=2" = some "2" ∧
    parseParameters "A=,A=2" =
      [{ ParameterKey := some "A", ParameterValue := some "2",
         UsePreviousValue := none }] ∧
    ("" ++ "," ++ "2" : String) ≠ "2" :=
  ⟨by decide, by decide, by decide, by decide, by decide, by decide, by decide⟩

/-- Witness for C4 on "A=1,B=2,A=3". -/
theorem parseParameters_spec_refines_witness :
    parseParameters "A=1,B=2,A=3" = specParseParameters "A=1,B=2,A=3" ∧
    parseParameters "A=1,B=2,A=3" =
      [{ ParameterKey := some "A", ParameterValue := some "1,3",
         UsePreviousValue := none },
       { ParameterKey := some "B", ParameterValue := some "2",
         UsePreviousValue := none }] :=
  ⟨(parseParameters_spec_refines "A=1,B=2,A=3" (by decide)).1, by decide⟩

end CfnDeploy
